import Mathlib

/-!
Verification of the Streaming Upload & Resilient Transcode Orchestration
subsystem of the docker-ffmpeg-service repository, as a shallow embedding.

The embedding translates, from the JavaScript sources:
  * the filesystem slice the services touch (an association list from path
    to size), with `existsSync` / `unlinkSync` / `statSync` observations;
  * `ConversionService.cleanupFile` and `FileService.deleteFile`;
  * the output-option flattening of `ConversionService.convertWithDirectFFmpeg`;
  * the conversion orchestration of `ConversionService.convertFile` /
    `convertWithFluentFFmpeg` / `convertWithDirectFFmpeg` as a state machine
    driven by the externally scheduled callback events;
  * the upload session of `UploadService.processUpload` as a state machine
    driven by the busboy events;
  * the download-name derivation of `FFmpegService.sendFileToClient` and of
    the legacy endpoint handler in `app.js`;
  * the parameter profiles of `endpoints.js` (both versions present in the
    repository).
-/

namespace DockerFfmpeg

/-! Filesystem model -/

/-- A model of the slice of the server's filesystem the services touch: an
association list from absolute path to file size in bytes.  A path absent
from the list does not exist on disk. -/
def FsState := List (String × Nat)

instance : DecidableEq FsState := by
  unfold FsState
  infer_instance

/-- Lookup of a path's size; `none` means the path does not exist. -/
def FsState.lookup : FsState → String → Option Nat
  | [], _ => none
  | (q, n) :: rest, p => if q = p then some n else FsState.lookup rest p

/-- Model of `fs.existsSync(path)`. -/
def FsState.existsSync (s : FsState) (p : String) : Bool :=
  (s.lookup p).isSome

/-- Effect of a successful `fs.unlinkSync(path)`: the path is removed. -/
def FsState.remove : FsState → String → FsState
  | [], _ => []
  | (q, n) :: rest, p =>
      if q = p then FsState.remove rest p else (q, n) :: FsState.remove rest p

/-- Errors a JavaScript statement can raise in the modelled fragment. -/
inductive JsError
  | referenceError (ident : String)
  | fsFailure
  deriving DecidableEq

/-- Model of `fs.unlinkSync`: either succeeds and removes the path, or, when
the filesystem misbehaves (`fail = true`), raises an error leaving the state
unchanged. -/
def unlinkSync (fail : Bool) (s : FsState) (p : String) : Except JsError FsState :=
  if fail then Except.error JsError.fsFailure else Except.ok (s.remove p)

/-- Translation of the body of the `try` block of
`ConversionService.cleanupFile` (conversionService.js lines 564-572):
`if (fs.existsSync(filePath)) { fs.unlinkSync(filePath); }`. -/
def cleanupFileTry (fail : Bool) (s : FsState) (p : String) : Except JsError FsState :=
  if s.existsSync p then unlinkSync fail s p else Except.ok s

/-- Translation of `ConversionService.cleanupFile` (conversionService.js
lines 563-580) seen from its caller: the `catch` swallows any filesystem
error (only logging it), so the call always returns normally. -/
def cleanupFileRun (fail : Bool) (s : FsState) (p : String) : Except JsError FsState :=
  match cleanupFileTry fail s p with
  | Except.ok s' => Except.ok s'
  | Except.error _ => Except.ok s

/-- The filesystem state after a call to `ConversionService.cleanupFile`. -/
def cleanupFile (fail : Bool) (s : FsState) (p : String) : FsState :=
  match cleanupFileTry fail s p with
  | Except.ok s' => s'
  | Except.error _ => s

/-- Translation of `FileService.deleteFile` (fileService module, lines
40-59): returns `true` when the file existed and was removed, `false`
otherwise; a filesystem error is caught, logged and reported as `false`. -/
def deleteFile (fail : Bool) (s : FsState) (p : String) : Bool × FsState :=
  if s.existsSync p then
    match unlinkSync fail s p with
    | Except.ok s' => (true, s')
    | Except.error _ => (false, s)
  else (false, s)

/-! Basic facts about the filesystem model. -/

theorem FsState.lookup_remove_self (s : FsState) (p : String) :
    (s.remove p).lookup p = none := by
  induction s with
  | nil => rfl
  | cons e rest ih =>
      by_cases h : e.1 = p
      · simpa [FsState.remove, h] using ih
      · simpa [FsState.remove, FsState.lookup, h] using ih

theorem FsState.lookup_remove_other (s : FsState) (p q : String) (hpq : q ≠ p) :
    (s.remove p).lookup q = s.lookup q := by
  induction s with
  | nil => rfl
  | cons e rest ih =>
      by_cases h : e.1 = p
      · have hq : e.1 ≠ q := fun hc => hpq (by rw [← hc, h])
        rw [FsState.remove, if_pos h, ih, FsState.lookup, if_neg hq]
      · rw [FsState.remove, if_neg h, FsState.lookup, FsState.lookup]
        by_cases hq : e.1 = q
        · rw [if_pos hq, if_pos hq]
        · rw [if_neg hq, if_neg hq, ih]

theorem FsState.remove_of_absent (s : FsState) (p : String)
    (h : s.existsSync p = false) : s.remove p = s := by
  induction s with
  | nil => rfl
  | cons e rest ih =>
      unfold FsState.existsSync FsState.lookup at h
      by_cases he : e.1 = p
      · simp [he] at h
      · have hrest : FsState.existsSync rest p = false := by
          unfold FsState.existsSync
          simpa [he] using h
        simp [FsState.remove, he, ih hrest]

theorem cleanupFile_absent (fail : Bool) (s : FsState) (p : String)
    (h : s.existsSync p = false) : cleanupFile fail s p = s := by
  simp [cleanupFile, cleanupFileTry, h]

theorem cleanupFile_success (s : FsState) (p : String) :
    cleanupFile false s p = s.remove p := by
  by_cases h : s.existsSync p
  · simp [cleanupFile, cleanupFileTry, unlinkSync, h]
  · simp [cleanupFile, cleanupFileTry, h,
      FsState.remove_of_absent s p (by simpa using h)]

theorem cleanupFile_idem (fail : Bool) (s : FsState) (p : String) :
    cleanupFile fail (cleanupFile false s p) p = cleanupFile false s p := by
  rw [cleanupFile_success]
  apply cleanupFile_absent
  simp [FsState.existsSync, FsState.lookup_remove_self]

/-- C7: the cleanup utility is a no-op when the path does not exist, never
throws outward even when the filesystem errors, and is idempotent: a second
cleanup of an already-deleted file changes nothing; `FileService.deleteFile`
behaves the same way, additionally returning `false` on the absent or
failing cases. -/
theorem c7_cleanup_is_safe_and_idempotent
    (fail fail2 : Bool) (s : FsState) (p : String) :
    (s.existsSync p = false → cleanupFile fail s p = s)
    ∧ (cleanupFileRun fail s p).isOk = true
    ∧ cleanupFile fail2 (cleanupFile false s p) p = cleanupFile false s p
    ∧ (s.existsSync p = false → deleteFile fail s p = (false, s))
    ∧ (deleteFile fail2 (deleteFile false s p).2 p).2 = (deleteFile false s p).2 := by
  refine ⟨cleanupFile_absent fail s p, ?_, cleanupFile_idem fail2 s p, ?_, ?_⟩
  · unfold cleanupFileRun
    cases cleanupFileTry fail s p <;> rfl
  · intro h
    simp [deleteFile, h]
  · by_cases h : s.existsSync p
    · have h2 : FsState.existsSync (s.remove p) p = false := by
        simp [FsState.existsSync, FsState.lookup_remove_self]
      simp [deleteFile, unlinkSync, h, h2]
    · have h' : s.existsSync p = false := by simpa using h
      simp [deleteFile, h']

/-- Witness instantiating `c7_cleanup_is_safe_and_idempotent` at a concrete
filesystem state and path. -/
theorem c7_witness :
    FsState.existsSync [(("/uploads/a" : String), (3 : Nat))] "/uploads/b" = false
    ∧ cleanupFile false [(("/uploads/a" : String), (3 : Nat))] "/uploads/b"
        = [(("/uploads/a" : String), (3 : Nat))] :=
  ⟨by decide,
    (c7_cleanup_is_safe_and_idempotent false false
      [(("/uploads/a" : String), (3 : Nat))] "/uploads/b").1 (by decide)⟩

/-! Output-option flattening for the fallback ffmpeg invocation. -/

/-- JavaScript `str.split(' ')` over the character list: every run between
two space characters becomes a fragment, empty fragments included
(`'a  b'.split(' ')` is `['a', '', 'b']`). -/
def splitOnSpaceCore : List Char → List Char → List (List Char)
  | [], acc => [acc.reverse]
  | c :: cs, acc =>
      if c = ' ' then acc.reverse :: splitOnSpaceCore cs []
      else splitOnSpaceCore cs (c :: acc)

/-- Whitespace recognised by JavaScript `String.prototype.trim` (the ASCII
part, which covers every character occurring in the parameter profiles). -/
def isJsSpace (c : Char) : Bool :=
  c = ' ' || c = '\t' || c = '\n' || c = '\r' || c = '\x0b' || c = '\x0c'

/-- JavaScript `str.trim()` over the character list. -/
def jsTrimCore (l : List Char) : List Char :=
  ((l.dropWhile isJsSpace).reverse.dropWhile isJsSpace).reverse

/-- Translation of the per-option flattening of
`ConversionService.convertWithDirectFFmpeg` (conversionService.js lines
446-453): `option.split(' ')`, then each part is pushed trimmed when its
trimmed form is non-empty. -/
def splitOutputOption (opt : String) : List String :=
  (splitOnSpaceCore opt.data []).filterMap (fun part =>
    let t := jsTrimCore part
    if t.isEmpty then none else some (String.mk t))

/-- Flattening of a whole parameter profile, in profile order. -/
def flattenOptions (opts : List String) : List String :=
  (opts.map splitOutputOption).flatten

/-- Argument list built by `convertWithDirectFFmpeg` (conversionService.js
lines 443-456): `['-i', inputFile]`, the flattened output options, then the
output file. -/
def directFFmpegArgs (inputFile outputFile : String) (opts : List String) :
    List String :=
  "-i" :: inputFile :: (flattenOptions opts ++ [outputFile])

theorem splitOnSpaceCore_no_space (l acc : List Char)
    (hacc : ∀ c ∈ acc, c ≠ ' ') :
    ∀ part ∈ splitOnSpaceCore l acc, ∀ c ∈ part, c ≠ ' ' := by
  induction l generalizing acc with
  | nil =>
      intro part hpart c hc
      simp [splitOnSpaceCore] at hpart
      subst hpart
      exact hacc c (List.mem_reverse.mp hc)
  | cons x xs ih =>
      intro part hpart c hc
      by_cases hx : x = ' '
      · simp [splitOnSpaceCore, hx] at hpart
        rcases hpart with h | h
        · subst h
          exact hacc c (List.mem_reverse.mp hc)
        · exact ih [] (by intro d hd; cases hd) part h c hc
      · simp [splitOnSpaceCore, hx] at hpart
        refine ih (x :: acc) ?_ part hpart c hc
        intro d hd
        rcases List.mem_cons.mp hd with h | h
        · exact h ▸ hx
        · exact hacc d h

theorem jsTrimCore_subset (l : List Char) : ∀ c ∈ jsTrimCore l, c ∈ l := by
  intro c hc
  unfold jsTrimCore at hc
  have h1 := List.mem_reverse.mp hc
  have h2 := (List.dropWhile_sublist isJsSpace).subset h1
  have h3 := List.mem_reverse.mp h2
  exact (List.dropWhile_sublist isJsSpace).subset h3

theorem splitOutputOption_tokens (opt : String) :
    ∀ t ∈ splitOutputOption opt, t ≠ "" ∧ ∀ c ∈ t.data, c ≠ ' ' := by
  intro t ht
  unfold splitOutputOption at ht
  rcases List.mem_filterMap.mp ht with ⟨part, hpart, hmk⟩
  by_cases hempty : (jsTrimCore part).isEmpty
  · simp [hempty] at hmk
  · simp [hempty] at hmk
    constructor
    · intro hcontra
      have : t.data = [] := by rw [hcontra]
      rw [← hmk] at this
      simp at this
      rw [this] at hempty
      simp [List.isEmpty] at hempty
    · intro c hc
      have hdata : t.data = jsTrimCore part := by rw [← hmk]
      rw [hdata] at hc
      have hinpart : c ∈ part := jsTrimCore_subset part c hc
      exact splitOnSpaceCore_no_space opt.data [] (by intro d hd; cases hd)
        part hpart c hinpart

/-- C10: the fallback argument flattening splits each output-option string on
single space characters and discards fragments that trim to nothing, so every
token passed to the spawned process is non-empty and space-free; an option
whose value contains spaces, such as the `-metadata` option of the
compress-mp4 profile, is passed as several separate tokens. -/
theorem c10_flattening_tokens :
    (∀ opts t, t ∈ flattenOptions opts → t ≠ "" ∧ ∀ c ∈ t.data, c ≠ ' ')
    ∧ splitOutputOption ("-metadata title=\"Compressed with FFmpeg 6.0\"")
        = ["-metadata", "title=\"Compressed", "with", "FFmpeg", "6.0\""] := by
  constructor
  · intro opts t ht
    unfold flattenOptions at ht
    rcases List.mem_flatten.mp ht with ⟨l, hl, htl⟩
    rcases List.mem_map.mp hl with ⟨opt, _, hopt⟩
    exact splitOutputOption_tokens opt t (hopt ▸ htl)
  · decide

/-- Witness instantiating `c10_flattening_tokens` on the compress-mp4
profile's metadata option. -/
theorem c10_witness :
    ("-metadata" : String) ≠ "" ∧ ∀ c ∈ ("-metadata" : String).data, c ≠ ' ' :=
  c10_flattening_tokens.1
    [("-metadata title=\"Compressed with FFmpeg 6.0\"")] ("-metadata")
    (by decide)

/-! Parameter profiles. -/

/-- A parameter profile of `endpoints.js`: an endpoint name, the target
extension, and the ordered ffmpeg output options. -/
structure ProfileSpec where
  name : String
  extension : String
  outputOptions : List String
  deriving DecidableEq

/-- The parameter profiles of the current `endpoints.js` (`exports.types`
with descriptions), in declaration order. -/
def typesCurrent : List ProfileSpec := [
  ⟨"jpg", "jpg", ["-pix_fmt yuv422p", "-q:v 2"]⟩,
  ⟨"m4a", "m4a", ["-codec:a aac", "-b:a 192k", "-ar 48000"]⟩,
  ⟨"mp3", "mp3",
    ["-codec:a libmp3lame", "-q:a 2", "-ar 44100", "-id3v2_version 3"]⟩,
  ⟨"wav", "wav", ["-acodec pcm_s16le", "-ar 44100"]⟩,
  ⟨"mp4", "mp4",
    ["-codec:v libx264", "-profile:v high", "-tune film", "-r 24", "-crf 23",
     "-preset medium", "-b:v 0", "-vf scale=-2:720", "-threads 0",
     "-codec:a aac", "-b:a 192k", "-movflags +faststart"]⟩,
  ⟨"webm", "webm",
    ["-codec:v libvpx-vp9", "-crf 30", "-b:v 0", "-deadline good",
     "-cpu-used 2", "-vf scale=-2:720", "-codec:a libopus", "-b:a 128k"]⟩,
  ⟨"compress-mp4", "mp4",
    ["-codec:v libx264", "-profile:v high", "-preset slower", "-crf 28",
     "-tune film", "-r 24", "-vf scale=-2:480", "-movflags +faststart",
     "-codec:a aac", "-b:a 96k", "-ac 2", "-threads 0",
     "-metadata title=\"Compressed with FFmpeg 6.0\""]⟩,
  ⟨"compress-webm", "webm",
    ["-codec:v libvpx", "-quality realtime", "-cpu-used 8",
     "-deadline realtime", "-vf scale=-2:360", "-b:v 500k",
     "-auto-alt-ref 0", "-lag-in-frames 0", "-threads 0",
     "-codec:a libvorbis", "-b:a 64k", "-ac 2", "-error-resilient 1",
     "-max_muxing_queue_size 9999"]⟩,
  ⟨"hevc", "mp4",
    ["-codec:v libx265", "-crf 28", "-preset medium", "-tag:v hvc1",
     "-vf scale=-2:720", "-x265-params", "bframes=8:psy-rd=1:aq-mode=3",
     "-codec:a aac", "-b:a 128k", "-movflags +faststart"]⟩,
  ⟨"av1", "mp4",
    ["-codec:v libaom-av1", "-crf 30", "-b:v 0", "-strict experimental",
     "-cpu-used 4", "-vf scale=-2:720", "-tiles 2x2", "-row-mt 1",
     "-codec:a libopus", "-b:a 128k"]⟩]

/-- The parameter profiles of the older `endpoints.js` kept in the
repository (`exports.types` without descriptions), in declaration order. -/
def typesLegacy : List ProfileSpec := [
  ⟨"jpg", "jpg", ["-pix_fmt yuv422p"]⟩,
  ⟨"m4a", "m4a", ["-codec:a libfdk_aac"]⟩,
  ⟨"mp3", "mp3", ["-codec:a libmp3lame"]⟩,
  ⟨"mp4", "mp4",
    ["-codec:v libx264", "-profile:v high", "-r 15", "-crf 23",
     "-preset ultrafast", "-b:v 500k", "-maxrate 500k", "-bufsize 1000k",
     "-vf scale=-2:640", "-threads 8", "-codec:a libfdk_aac", "-b:a 128k"]⟩,
  ⟨"compress-mp4", "mp4",
    ["-codec:v libx264", "-profile:v high", "-preset slow", "-crf 28",
     "-r 24", "-vf scale=-2:480", "-movflags +faststart", "-codec:a aac",
     "-b:a 96k", "-ac 2", "-threads 0"]⟩,
  ⟨"compress-webm", "webm",
    ["-codec:v libvpx-vp9", "-b:v 500k", "-maxrate 750k", "-crf 33",
     "-r 24", "-vf scale=-2:480", "-deadline good", "-cpu-used 2",
     "-codec:a libopus", "-b:a 96k", "-ac 2"]⟩]

/-- Output path derivation of `FFmpegService.processConversionRequest`
(ffmpegService.js line 52) and of the legacy endpoint handler (app.js line
139): the saved upload path with a dot and the profile extension appended. -/
def outputFileFor (savedPath extension : String) : String :=
  savedPath ++ "." ++ extension

theorem outputFileFor_ne (p e : String) : outputFileFor p e ≠ p := by
  intro h
  have hd := congrArg String.data h
  unfold outputFileFor at hd
  rw [String.data_append, String.data_append] at hd
  have hlen := congrArg List.length hd
  simp at hlen

theorem cleanupFile_cases (fail : Bool) (s : FsState) (p : String) :
    cleanupFile fail s p = s ∨ cleanupFile fail s p = s.remove p := by
  unfold cleanupFile cleanupFileTry unlinkSync
  by_cases h : s.existsSync p
  · cases fail <;> simp [h]
  · simp [h]

theorem cleanupFile_lookup_other (fail : Bool) (s : FsState) (p q : String)
    (hpq : q ≠ p) :
    FsState.lookup (cleanupFile fail s p) q = s.lookup q := by
  rcases cleanupFile_cases fail s p with h | h <;> rw [h]
  exact FsState.lookup_remove_other s p q hpq

/-- C9: for every request the conversion's output path is the saved input
path with a dot and the profile extension appended; every profile in either
version of `endpoints.js` has a non-empty extension; the output path always
differs from the input path, and cleaning up one of the two paths never
changes what is stored at the other. -/
theorem c9_output_path_never_input (p : String) (t : ProfileSpec)
    (ht : t ∈ typesCurrent ++ typesLegacy) (fail : Bool) (s : FsState) :
    t.extension ≠ ""
    ∧ outputFileFor p t.extension ≠ p
    ∧ FsState.lookup (cleanupFile fail s p) (outputFileFor p t.extension)
        = s.lookup (outputFileFor p t.extension)
    ∧ FsState.lookup (cleanupFile fail s (outputFileFor p t.extension)) p
        = s.lookup p := by
  refine ⟨?_, outputFileFor_ne p t.extension, ?_, ?_⟩
  · have hall : (typesCurrent ++ typesLegacy).all
        (fun u => u.extension != "") = true := by decide
    have := List.all_eq_true.mp hall t ht
    simpa using this
  · exact cleanupFile_lookup_other fail s p (outputFileFor p t.extension)
      (outputFileFor_ne p t.extension)
  · exact cleanupFile_lookup_other fail s (outputFileFor p t.extension) p
      (fun h => outputFileFor_ne p t.extension h.symm)

/-- Witness instantiating `c9_output_path_never_input` on the mp3 profile
and a concrete upload path. -/
theorem c9_witness :
    ("mp3" : String) ≠ ""
    ∧ outputFileFor "/uploads/u1" "mp3" ≠ "/uploads/u1"
    ∧ FsState.lookup
        (cleanupFile false [(("/uploads/u1" : String), (7 : Nat))] "/uploads/u1")
        (outputFileFor "/uploads/u1" "mp3")
      = FsState.lookup [(("/uploads/u1" : String), (7 : Nat))]
          (outputFileFor "/uploads/u1" "mp3")
    ∧ FsState.lookup
        (cleanupFile false [(("/uploads/u1" : String), (7 : Nat))]
          (outputFileFor "/uploads/u1" "mp3")) "/uploads/u1"
      = FsState.lookup [(("/uploads/u1" : String), (7 : Nat))] "/uploads/u1" :=
  c9_output_path_never_input "/uploads/u1"
    ⟨"mp3", "mp3",
      ["-codec:a libmp3lame", "-q:a 2", "-ar 44100", "-id3v2_version 3"]⟩
    (by decide) false [(("/uploads/u1" : String), (7 : Nat))]

/-! Download-name derivation for result delivery. -/

/-- Translation of `originalName.replace(/\.[^/.]+$/, '')` as used by
`FFmpegService.sendFileToClient` (ffmpegService.js line 154): when the name
ends in a dot followed by a non-empty run of characters none of which is a
dot or a slash, that dot and run are removed; otherwise the name is kept. -/
def jsStripExtCore (l : List Char) : List Char :=
  let rev := l.reverse
  let seg := rev.takeWhile (fun c => c != '.' && c != '/')
  if seg.isEmpty then l
  else
    match rev.drop seg.length with
    | '.' :: rest => rest.reverse
    | _ => l

/-- String form of `jsStripExtCore`. -/
def jsStripExt (s : String) : String := String.mk (jsStripExtCore s.data)

/-- Attachment name sent by `FFmpegService.sendFileToClient` (ffmpegService.js
line 154): the original name with its final extension stripped, a dot, and
the target extension. -/
def downloadNameService (originalName extension : String) : String :=
  jsStripExt originalName ++ "." ++ extension

/-- Attachment name sent by the legacy endpoint handler (app.js line 273):
the original name unchanged, a dot, and the target extension. -/
def downloadNameLegacy (fileName extension : String) : String :=
  fileName ++ "." ++ extension

theorem takeWhile_append_stop (p : Char → Bool) (xs ys : List Char)
    (hxs : ∀ x ∈ xs, p x = true) (y : Char) (hy : p y = false) :
    (xs ++ y :: ys).takeWhile p = xs := by
  induction xs with
  | nil => simp [List.takeWhile, hy]
  | cons x xs ih =>
      have hx : p x = true := hxs x (List.mem_cons_self x xs)
      have hrest : ∀ z ∈ xs, p z = true :=
        fun z hz => hxs z (List.mem_cons_of_mem x hz)
      simp [List.takeWhile, hx, ih hrest]

theorem jsStripExtCore_strips (xs ys : List Char) (hys : ys ≠ [])
    (h : ∀ c ∈ ys, c ≠ '.' ∧ c ≠ '/') :
    jsStripExtCore (xs ++ '.' :: ys) = xs := by
  have hrev : (xs ++ '.' :: ys).reverse = ys.reverse ++ '.' :: xs.reverse := by
    simp
  have hall : ∀ c ∈ ys.reverse, (c != '.' && c != '/') = true := by
    intro c hc
    rcases h c (List.mem_reverse.mp hc) with ⟨h1, h2⟩
    simp [h1, h2]
  have htake : (xs ++ '.' :: ys).reverse.takeWhile
      (fun c => c != '.' && c != '/') = ys.reverse := by
    rw [hrev]
    exact takeWhile_append_stop _ ys.reverse ('.' :: xs.reverse).tail
      hall '.' (by decide)
  have hdrop : (xs ++ '.' :: ys).reverse.drop ys.reverse.length
      = '.' :: xs.reverse := by
    rw [hrev]
    exact List.drop_left ys.reverse ('.' :: xs.reverse)
  have hne : ys.reverse.isEmpty = false := by
    cases hrevb : ys.reverse with
    | nil => exact absurd (by simpa using hrevb) hys
    | cons z zs => rfl
  simp only [jsStripExtCore]
  rw [htake, hdrop]
  simp [hne]

theorem jsStripExt_strips (a b : String) (hb : b.data ≠ [])
    (hbc : ∀ c ∈ b.data, c ≠ '.' ∧ c ≠ '/') :
    jsStripExt (a ++ "." ++ b) = a := by
  have hdot : ("." : String).data = ['.'] := rfl
  have hdata : (a ++ "." ++ b).data = a.data ++ '.' :: b.data := by
    rw [String.data_append, String.data_append, hdot, List.append_assoc]
    rfl
  unfold jsStripExt
  rw [hdata, jsStripExtCore_strips a.data b.data hb hbc]

/-- C8 counterexample: the legacy endpoint handler of app.js delivers
`video.mov.mp4` for an upload named `video.mov` converted to mp4, not the
`video.mp4` demanded by the claim's derivation. -/
theorem c8_counterexample :
    downloadNameLegacy ("video.mov") ("mp4") = "video.mov.mp4"
    ∧ jsStripExt ("video.mov") ++ "." ++ "mp4" = "video.mp4"
    ∧ downloadNameLegacy ("video.mov") ("mp4")
        ≠ jsStripExt ("video.mov") ++ "." ++ "mp4" := by
  refine ⟨rfl, ?_, ?_⟩ <;> decide

/-- C8 (amended): the delivery path of `FFmpegService.sendFileToClient`
derives the attachment name by stripping the original filename's final
extension and appending a dot and the target extension, while the legacy
endpoint handler of app.js appends the dot and target extension to the full
original filename without stripping. -/
theorem c8_download_names (a b ext : String) (hb : b.data ≠ [])
    (hbc : ∀ c ∈ b.data, c ≠ '.' ∧ c ≠ '/') :
    downloadNameService (a ++ "." ++ b) ext = a ++ "." ++ ext
    ∧ downloadNameLegacy (a ++ "." ++ b) ext = (a ++ "." ++ b) ++ "." ++ ext := by
  constructor
  · unfold downloadNameService
    rw [jsStripExt_strips a b hb hbc]
  · rfl

/-- Witness instantiating `c8_download_names` on `video.mov` to `mp4`. -/
theorem c8_witness :
    downloadNameService ("video" ++ "." ++ "mov") "mp4"
      = "video" ++ "." ++ "mp4"
    ∧ downloadNameLegacy ("video" ++ "." ++ "mov") "mp4"
      = ("video" ++ "." ++ "mov") ++ "." ++ "mp4" :=
  c8_download_names "video" "mov" "mp4" (by decide) (by decide)

/-! Conversion orchestration of `ConversionService.convertFile`. -/

/-- Configuration of one conversion job, as destructured at the top of
`convertFile` (conversionService.js lines 31-41). -/
structure ConvConfig where
  inputFile : String
  outputFile : String
  outputOptions : List String
  deriving DecidableEq

/-- Errors the conversion paths report. -/
inductive ConvErr
  | timeoutExpired
  | outputMissing
  | outputEmpty
  | ffmpegExited (code : Int)
  | spawnFailed
  deriving DecidableEq

/-- One invocation of the `onSuccess` or `onError` callback handed to
`convertFile`: the job's outward reports to its caller. -/
inductive ConvReport
  | success (outputFile : String)
  | failure (statusCode : Nat) (err : ConvErr)
  deriving DecidableEq

/-- Settlement of the Promise returned by `convertFile`; in JavaScript only
the first `resolve`/`reject` of a Promise counts. -/
inductive ConvSettle
  | resolved (outputFile : String)
  | rejected (err : ConvErr)
  deriving DecidableEq

/-- State of one conversion job: the closure variables of `convertFile`
(`usingAlternateMethod`, the timeout), the spawn of the fallback, the Promise
settlement, and the observable effect histories (reports to the caller and
invocations of `cleanupFile` on the input file). -/
structure ConvState where
  usingAlternateMethod : Bool
  timeoutArmed : Bool
  timeoutFired : Bool
  fallbackStarted : Bool
  spawnedArgs : Option (List String)
  settled : Option ConvSettle
  reports : List ConvReport
  cleanupCalls : Nat
  inputPresent : Bool
  deriving DecidableEq

/-- Promise `reject`: honoured only while the Promise is unsettled. -/
def settleReject (s : ConvState) (e : ConvErr) : ConvState :=
  if s.settled.isSome then s else { s with settled := some (ConvSettle.rejected e) }

/-- Promise `resolve`: honoured only while the Promise is unsettled. -/
def settleResolve (s : ConvState) (out : String) : ConvState :=
  if s.settled.isSome then s else { s with settled := some (ConvSettle.resolved out) }

/-- One invocation of `ConversionService.cleanupFile` on the input file: a
cleanup pass is recorded and the input file is gone afterwards. -/
def cleanupInput (s : ConvState) : ConvState :=
  { s with cleanupCalls := s.cleanupCalls + 1, inputPresent := false }

/-- Translation of `ConversionService.handleError` (conversionService.js
lines 545-556): log, clean the input file, invoke `onError(error,
statusCode)`. -/
def reportError (s : ConvState) (statusCode : Nat) (e : ConvErr) : ConvState :=
  let s := cleanupInput s
  { s with reports := s.reports ++ [ConvReport.failure statusCode e] }

/-- Translation of the `tryAlternateMethod` closure of `convertFile`
(conversionService.js lines 83-97): set `usingAlternateMethod` and invoke
`convertWithDirectFFmpeg`, which builds the flattened argument list and
spawns the ffmpeg process. -/
def tryAlternateMethod (cfg : ConvConfig) (s : ConvState) : ConvState :=
  { s with usingAlternateMethod := true, fallbackStarted := true,
           spawnedArgs := some
             (directFFmpegArgs cfg.inputFile cfg.outputFile cfg.outputOptions) }

/-- Callback events delivered to the job by the runtime.  The `primaryEnd`
and `fallbackClose` events carry the observation of the output file
(`none` when `fs.existsSync(outputFile)` is false, otherwise its size as
read by `fs.statSync`) at the moment the handler runs. -/
inductive ConvEvent
  | timeoutFires
  | primaryError
  | primaryEnd (outSize : Option Nat)
  | fallbackClose (code : Int) (outSize : Option Nat)
  | fallbackSpawnError
  deriving DecidableEq

/-- One callback firing, as translated from conversionService.js:
the timeout handler (lines 59-63), the fluent-ffmpeg `error` handler
(lines 298-316), the fluent-ffmpeg `end` handler (lines 317-392), the
spawned process `close` handler (lines 485-524), and the spawned process
`error` handler (lines 526-534). -/
def convStep (cfg : ConvConfig) (s : ConvState) : ConvEvent → ConvState
  | ConvEvent.timeoutFires =>
      if s.timeoutArmed then
        let s := { s with timeoutArmed := false, timeoutFired := true }
        let s := reportError s 504 ConvErr.timeoutExpired
        settleReject s ConvErr.timeoutExpired
      else s
  | ConvEvent.primaryError =>
      if s.usingAlternateMethod then s
      else tryAlternateMethod cfg s
  | ConvEvent.primaryEnd outSize =>
      if s.usingAlternateMethod then s
      else
        let s := { s with timeoutArmed := false }
        let s := cleanupInput s
        match outSize with
        | none =>
            let s := reportError s 500 ConvErr.outputMissing
            settleReject s ConvErr.outputMissing
        | some n =>
            if n = 0 then
              let s := reportError s 500 ConvErr.outputEmpty
              settleReject s ConvErr.outputEmpty
            else
              let s := { s with reports :=
                s.reports ++ [ConvReport.success cfg.outputFile] }
              settleResolve s cfg.outputFile
  | ConvEvent.fallbackClose code outSize =>
      let s := { s with timeoutArmed := false }
      if code = 0 then
        let s := cleanupInput s
        match outSize with
        | none =>
            let s := reportError s 500 ConvErr.outputMissing
            settleReject s ConvErr.outputMissing
        | some _ =>
            let s := { s with reports :=
              s.reports ++ [ConvReport.success cfg.outputFile] }
            settleResolve s cfg.outputFile
      else
        let s := reportError s 500 (ConvErr.ffmpegExited code)
        settleReject s (ConvErr.ffmpegExited code)
  | ConvEvent.fallbackSpawnError =>
      let s := reportError s 500 ConvErr.spawnFailed
      settleReject s ConvErr.spawnFailed

/-- State of the job right after `verifyInputFile` succeeded and the timeout
was armed (conversionService.js lines 59-66). -/
def convInit : ConvState :=
  ⟨false, true, false, false, none, none, [], 0, true⟩

/-- State after `convertFile` finished its synchronous part: when creating
the primary fluent-ffmpeg invocation throws (`initThrows = true`), the catch
blocks at lines 99-121 and 395-415 invoke `tryAlternateMethod` without
reporting anything; otherwise the primary invocation is under way. -/
def convStart (cfg : ConvConfig) (initThrows : Bool) : ConvState :=
  if initThrows then tryAlternateMethod cfg convInit else convInit

/-- The job state after the runtime delivers the given callback events in
order. -/
def convRun (cfg : ConvConfig) (initThrows : Bool)
    (events : List ConvEvent) : ConvState :=
  events.foldl (convStep cfg) (convStart cfg initThrows)

/-- A concrete configuration reused by the concrete counterexamples. -/
def sampleCfg : ConvConfig :=
  ⟨"/uploads/in", "/uploads/in.mp4", ["-codec:v libx264", "-b:a 128k"]⟩

/-- C1 counterexample: the timeout fires first and reports `TimedOut`, yet a
terminal `end` signal arriving afterwards from the primary path produces a
second outward report (the success callback) and a second cleanup pass: the
run ends with two reports and two cleanup invocations, not one. -/
theorem c1_counterexample :
    (convRun sampleCfg false
      [ConvEvent.timeoutFires, ConvEvent.primaryEnd (some 5)]).reports
      = [ConvReport.failure 504 ConvErr.timeoutExpired,
         ConvReport.success ("/uploads/in.mp4")]
    ∧ (convRun sampleCfg false
        [ConvEvent.timeoutFires, ConvEvent.primaryEnd (some 5)]).cleanupCalls
        = 2 := by
  constructor <;> decide

/-- C1 (amended): the Promise of `convertFile` settles at most once (the
first settlement wins and every later event leaves it unchanged), the
timeout reports `TimedOut` exactly once (it disarms itself and a disarmed
timeout is a no-op), and once the fallback is in use the primary path's late
signals are ignored; however a terminal primary signal arriving after the
timeout, with the fallback not in use, still invokes a callback report and
runs another cleanup pass. -/
theorem c1_settlement_and_late_signals (cfg : ConvConfig) (s : ConvState)
    (e : ConvEvent) (o : Option Nat) :
    (s.settled.isSome = true → (convStep cfg s e).settled = s.settled)
    ∧ (s.timeoutArmed = true →
        (convStep cfg s ConvEvent.timeoutFires).reports
          = s.reports ++ [ConvReport.failure 504 ConvErr.timeoutExpired]
        ∧ (convStep cfg s ConvEvent.timeoutFires).timeoutArmed = false)
    ∧ (s.timeoutArmed = false → convStep cfg s ConvEvent.timeoutFires = s)
    ∧ (s.usingAlternateMethod = true →
        convStep cfg s ConvEvent.primaryError = s
        ∧ convStep cfg s (ConvEvent.primaryEnd o) = s)
    ∧ (s.usingAlternateMethod = false →
        (convStep cfg s (ConvEvent.primaryEnd o)).reports.length
          = s.reports.length + 1
        ∧ (convStep cfg s (ConvEvent.primaryEnd o)).cleanupCalls
          > s.cleanupCalls) := by
  refine ⟨?_, ?_, ?_, ?_, ?_⟩
  · intro h
    cases e with
    | timeoutFires =>
        by_cases ht : s.timeoutArmed <;>
          simp [convStep, ht, reportError, cleanupInput, settleReject, h]
    | primaryError =>
        by_cases hu : s.usingAlternateMethod <;>
          simp [convStep, hu, tryAlternateMethod]
    | primaryEnd outSize =>
        by_cases hu : s.usingAlternateMethod
        · simp [convStep, hu]
        · cases outSize with
          | none =>
              simp [convStep, hu, reportError, cleanupInput, settleReject, h]
          | some n =>
              by_cases hn : n = 0 <;>
                simp [convStep, hu, hn, reportError, cleanupInput,
                  settleReject, settleResolve, h]
    | fallbackClose code outSize =>
        by_cases hcode : code = 0
        · cases outSize with
          | none =>
              simp [convStep, hcode, reportError, cleanupInput, settleReject, h]
          | some n =>
              simp [convStep, hcode, reportError, cleanupInput,
                settleResolve, h]
        · simp [convStep, hcode, reportError, cleanupInput, settleReject, h]
    | fallbackSpawnError =>
        simp [convStep, reportError, cleanupInput, settleReject, h]
  · intro ht
    by_cases hs : s.settled.isSome <;> constructor <;>
      simp [convStep, ht, reportError, cleanupInput, settleReject, hs]
  · intro ht
    simp [convStep, ht]
  · intro hu
    constructor <;> simp [convStep, hu]
  · intro hu
    by_cases hs : s.settled.isSome
    all_goals
      cases o with
      | none =>
          constructor <;>
            simp [convStep, hu, reportError, cleanupInput, settleReject, hs]
          omega
      | some n =>
          by_cases hn : n = 0 <;> constructor <;>
            simp [convStep, hu, hn, reportError, cleanupInput,
              settleReject, settleResolve, hs]
          all_goals omega

/-- Witness instantiating `c1_settlement_and_late_signals` on the state
reached after the timeout fired, with a late primary `end` signal. -/
theorem c1_witness :
    (convStep sampleCfg
        (convRun sampleCfg false [ConvEvent.timeoutFires])
        (ConvEvent.primaryEnd (some 5))).settled
      = (convRun sampleCfg false [ConvEvent.timeoutFires]).settled
    ∧ (convStep sampleCfg (convRun sampleCfg false [ConvEvent.timeoutFires])
        (ConvEvent.primaryEnd (some 5))).reports.length
      = (convRun sampleCfg false [ConvEvent.timeoutFires]).reports.length + 1 :=
  ⟨(c1_settlement_and_late_signals sampleCfg
      (convRun sampleCfg false [ConvEvent.timeoutFires])
      (ConvEvent.primaryEnd (some 5)) (some 5)).1 (by decide),
   ((c1_settlement_and_late_signals sampleCfg
      (convRun sampleCfg false [ConvEvent.timeoutFires])
      (ConvEvent.primaryEnd (some 5)) (some 5)).2.2.2.2 (by decide)).1⟩

/-- C4 counterexample: after the timeout has fired, a primary terminal error
still starts the fallback path — the guard checks `usingAlternateMethod`
only, which the timeout handler does not set, so the fallback is attempted
even though the timeout has already fired. -/
theorem c4_counterexample :
    (convRun sampleCfg false
      [ConvEvent.timeoutFires, ConvEvent.primaryError]).timeoutFired = true
    ∧ (convRun sampleCfg false
        [ConvEvent.timeoutFires, ConvEvent.primaryError]).fallbackStarted
        = true := by
  constructor <;> decide

/-- C4 (amended): a primary terminal error, or an exception raised while
constructing the primary invocation, is never reported to the caller — no
callback fires and the Promise is untouched — and the fallback is attempted
unless the fallback is already in use (the `usingAlternateMethod` guard);
the timeout having fired does not prevent the fallback attempt. -/
theorem c4_primary_failure_not_reported (cfg : ConvConfig) (s : ConvState) :
    (s.usingAlternateMethod = false →
        convStep cfg s ConvEvent.primaryError = tryAlternateMethod cfg s
        ∧ (convStep cfg s ConvEvent.primaryError).reports = s.reports
        ∧ (convStep cfg s ConvEvent.primaryError).settled = s.settled
        ∧ (convStep cfg s ConvEvent.primaryError).fallbackStarted = true)
    ∧ (s.usingAlternateMethod = true →
        convStep cfg s ConvEvent.primaryError = s)
    ∧ (convStart cfg true).reports = []
    ∧ (convStart cfg true).settled = none
    ∧ (convStart cfg true).fallbackStarted = true := by
  refine ⟨?_, ?_, rfl, rfl, rfl⟩
  · intro hu
    refine ⟨by simp [convStep, hu], ?_, ?_, ?_⟩ <;>
      simp [convStep, hu, tryAlternateMethod]
  · intro hu
    simp [convStep, hu]

/-- Witness instantiating `c4_primary_failure_not_reported` on the state
reached after the timeout fired. -/
theorem c4_witness :
    (convStep sampleCfg (convRun sampleCfg false [ConvEvent.timeoutFires])
        ConvEvent.primaryError).reports
      = (convRun sampleCfg false [ConvEvent.timeoutFires]).reports
    ∧ (convStep sampleCfg (convRun sampleCfg false [ConvEvent.timeoutFires])
        ConvEvent.primaryError).fallbackStarted = true :=
  ⟨((c4_primary_failure_not_reported sampleCfg
      (convRun sampleCfg false [ConvEvent.timeoutFires])).1 (by decide)).2.1,
   ((c4_primary_failure_not_reported sampleCfg
      (convRun sampleCfg false [ConvEvent.timeoutFires])).1 (by decide)).2.2.2⟩

/-- C5: when the fallback path runs it spawns the engine with `-i`, the
input path, the profile's option tokens flattened in profile order, and the
output path; when the spawned process exits with a non-zero code the single
outward report carries that exit code, the input file is cleaned up exactly
once and is gone, and cleanup is idempotent. -/
theorem c5_fallback_args_and_exit (cfg : ConvConfig) (c : Int)
    (obs : Option Nat) (hc : c ≠ 0) :
    (convRun cfg false
        [ConvEvent.primaryError, ConvEvent.fallbackClose c obs]).spawnedArgs
      = some ("-i" :: cfg.inputFile ::
          (flattenOptions cfg.outputOptions ++ [cfg.outputFile]))
    ∧ (convRun cfg false
        [ConvEvent.primaryError, ConvEvent.fallbackClose c obs]).reports
      = [ConvReport.failure 500 (ConvErr.ffmpegExited c)]
    ∧ (convRun cfg false
        [ConvEvent.primaryError, ConvEvent.fallbackClose c obs]).cleanupCalls = 1
    ∧ (convRun cfg false
        [ConvEvent.primaryError, ConvEvent.fallbackClose c obs]).inputPresent
      = false
    ∧ (∀ fail fs2 p, cleanupFile fail (cleanupFile false fs2 p) p
        = cleanupFile false fs2 p) := by
  refine ⟨?_, ?_, ?_, ?_, fun fail fs2 p => cleanupFile_idem fail fs2 p⟩ <;>
    simp [convRun, convStart, convInit, convStep, tryAlternateMethod,
      directFFmpegArgs, reportError, cleanupInput, settleReject, hc]

/-- Witness instantiating `c5_fallback_args_and_exit` at exit code 1 on the
sample configuration. -/
theorem c5_witness :
    (convRun sampleCfg false
        [ConvEvent.primaryError, ConvEvent.fallbackClose 1 none]).reports
      = [ConvReport.failure 500 (ConvErr.ffmpegExited 1)]
    ∧ (convRun sampleCfg false
        [ConvEvent.primaryError, ConvEvent.fallbackClose 1 none]).cleanupCalls
      = 1 :=
  ⟨(c5_fallback_args_and_exit sampleCfg 1 none (by decide)).2.1,
   (c5_fallback_args_and_exit sampleCfg 1 none (by decide)).2.2.1⟩

/-- C6: on a primary terminal success signal (fallback not in use) the
orchestrator cancels the timeout, deletes the input file, leaves the
fallback alone, and verifies the output: a missing output yields the
output-missing failure, an empty output the output-empty failure, and only a
present non-empty output yields the success report carrying the output
path and resolves the Promise with it. -/
theorem c6_primary_end_verifies_output (cfg : ConvConfig) (s : ConvState)
    (obs : Option Nat) (hu : s.usingAlternateMethod = false)
    (hset : s.settled = none) :
    (convStep cfg s (ConvEvent.primaryEnd obs)).timeoutArmed = false
    ∧ (convStep cfg s (ConvEvent.primaryEnd obs)).inputPresent = false
    ∧ (convStep cfg s (ConvEvent.primaryEnd obs)).usingAlternateMethod = false
    ∧ (convStep cfg s (ConvEvent.primaryEnd obs)).fallbackStarted
        = s.fallbackStarted
    ∧ (convStep cfg s (ConvEvent.primaryEnd obs)).spawnedArgs = s.spawnedArgs
    ∧ (obs = none →
        (convStep cfg s (ConvEvent.primaryEnd obs)).reports
          = s.reports ++ [ConvReport.failure 500 ConvErr.outputMissing]
        ∧ (convStep cfg s (ConvEvent.primaryEnd obs)).settled
          = some (ConvSettle.rejected ConvErr.outputMissing))
    ∧ (obs = some 0 →
        (convStep cfg s (ConvEvent.primaryEnd obs)).reports
          = s.reports ++ [ConvReport.failure 500 ConvErr.outputEmpty]
        ∧ (convStep cfg s (ConvEvent.primaryEnd obs)).settled
          = some (ConvSettle.rejected ConvErr.outputEmpty))
    ∧ (∀ n, obs = some n → n ≠ 0 →
        (convStep cfg s (ConvEvent.primaryEnd obs)).reports
          = s.reports ++ [ConvReport.success cfg.outputFile]
        ∧ (convStep cfg s (ConvEvent.primaryEnd obs)).settled
          = some (ConvSettle.resolved cfg.outputFile)
        ∧ (convStep cfg s (ConvEvent.primaryEnd obs)).cleanupCalls
          = s.cleanupCalls + 1) := by
  refine ⟨?_, ?_, ?_, ?_, ?_, ?_, ?_, ?_⟩
  · cases obs with
    | none => simp [convStep, hu, reportError, cleanupInput, settleReject, hset]
    | some n =>
        by_cases hn : n = 0 <;>
          simp [convStep, hu, hn, reportError, cleanupInput, settleReject,
            settleResolve, hset]
  · cases obs with
    | none => simp [convStep, hu, reportError, cleanupInput, settleReject, hset]
    | some n =>
        by_cases hn : n = 0 <;>
          simp [convStep, hu, hn, reportError, cleanupInput, settleReject,
            settleResolve, hset]
  · cases obs with
    | none => simp [convStep, hu, reportError, cleanupInput, settleReject, hset]
    | some n =>
        by_cases hn : n = 0 <;>
          simp [convStep, hu, hn, reportError, cleanupInput, settleReject,
            settleResolve, hset]
  · cases obs with
    | none => simp [convStep, hu, reportError, cleanupInput, settleReject, hset]
    | some n =>
        by_cases hn : n = 0 <;>
          simp [convStep, hu, hn, reportError, cleanupInput, settleReject,
            settleResolve, hset]
  · cases obs with
    | none => simp [convStep, hu, reportError, cleanupInput, settleReject, hset]
    | some n =>
        by_cases hn : n = 0 <;>
          simp [convStep, hu, hn, reportError, cleanupInput, settleReject,
            settleResolve, hset]
  · intro h
    subst h
    constructor <;>
      simp [convStep, hu, reportError, cleanupInput, settleReject, hset]
  · intro h
    subst h
    constructor <;>
      simp [convStep, hu, reportError, cleanupInput, settleReject, hset]
  · intro n h hn
    subst h
    refine ⟨?_, ?_, ?_⟩ <;>
      simp [convStep, hu, hn, reportError, cleanupInput, settleResolve, hset]

/-- Witness instantiating `c6_primary_end_verifies_output` on the initial
job state with a non-empty output observation. -/
theorem c6_witness :
    (convStep sampleCfg convInit (ConvEvent.primaryEnd (some 3))).reports
      = [ConvReport.success ("/uploads/in.mp4")]
    ∧ (convStep sampleCfg convInit
        (ConvEvent.primaryEnd (some 3))).timeoutArmed = false :=
  ⟨by
    have h := ((c6_primary_end_verifies_output sampleCfg convInit (some 3)
      (by decide) (by decide)).2.2.2.2.2.2.2 3 rfl (by decide)).1
    simpa using h,
   (c6_primary_end_verifies_output sampleCfg convInit (some 3)
      (by decide) (by decide)).1⟩

/-! Upload session of `UploadService.processUpload`. -/

/-- Per-request upload data: the client-declared name and mime type and the
generated destination path. -/
structure UpConfig where
  originalName : String
  savedPath : String
  mimetype : String
  deriving DecidableEq

/-- Failures the upload session reports. -/
inductive UpErr
  | tooManyFiles
  | fileTooLarge
  | emptyUpload
  | statFailed (e : JsError)
  deriving DecidableEq

/-- Observable actions of the upload session, in execution order:
`file.resume()`, an `onError(err, statusCode)` report, and the deletion of
the partially written destination file. -/
inductive UpAction
  | resume
  | reportFailure (statusCode : Nat) (err : UpErr)
  | deletePartial
  deriving DecidableEq

/-- Settlement of the Promise returned by `processUpload`. -/
inductive UpSettle
  | resolvedUpload (originalName savedPath : String) (size : Nat)
      (mimetype : String)
  | rejectedUpload (err : UpErr)
  deriving DecidableEq

/-- State of one upload session: the closure variables `hitLimit` and
`bytes`, the emitted action history, and the Promise settlement. -/
structure UpState where
  hitLimit : Bool
  bytes : Nat
  actions : List UpAction
  settledUp : Option UpSettle
  deriving DecidableEq

/-- Promise `reject` of the upload session: first settlement wins. -/
def settleUpReject (s : UpState) (e : UpErr) : UpState :=
  if s.settledUp.isSome then s
  else { s with settledUp := some (UpSettle.rejectedUpload e) }

/-- Promise `resolve` of the upload session with the upload result
`{originalName, savedPath, size, mimetype}` (endpoints.js lines 248-259). -/
def settleUpResolve (cfg : UpConfig) (s : UpState) : UpState :=
  if s.settledUp.isSome then s
  else
    { s with settledUp := some (UpSettle.resolvedUpload cfg.originalName
        cfg.savedPath s.bytes cfg.mimetype) }

/-- Identifiers bound at module scope by the `require` statements of the
UploadService module (endpoints.js, upload module, lines 77-79): `Busboy`,
`winston` and `FileService`.  The identifier `fs` is not among them. -/
def uploadModuleBindings : List String := ["Busboy", "winston", "FileService"]

/-- Busboy events delivered to the upload session.  `bodyFinish` carries the
size of the destination file as `fs.statSync` would observe it at that
moment (`none` when the file is missing). -/
inductive UpEvent
  | fileData (n : Nat)
  | fileLimit
  | filesLimit
  | bodyFinish (savedSize : Option Nat)
  deriving DecidableEq

/-- Translation of the busboy `finish` handler (endpoints.js lines 197-260).
With the limit hit, the partial file is deleted and the handler returns.
Otherwise the `try` block's first statement evaluates `fs.statSync(savedFile)`:
when the identifier `fs` is bound, the block checks the size and resolves
(this branch translates the block's text); in this module `fs` is unbound,
so the evaluation raises a ReferenceError that the `catch` at line 234 turns
into `onError(error, 500)` and a rejection. -/
def finishHandler (cfg : UpConfig) (s : UpState) (savedSize : Option Nat) :
    UpState :=
  if s.hitLimit then { s with actions := s.actions ++ [UpAction.deletePartial] }
  else if uploadModuleBindings.contains "fs" then
    match savedSize with
    | none =>
        let s := { s with actions := s.actions ++
          [UpAction.reportFailure 500 (UpErr.statFailed JsError.fsFailure)] }
        settleUpReject s (UpErr.statFailed JsError.fsFailure)
    | some k =>
        if k = 0 then
          let s := { s with actions := s.actions ++
            [UpAction.reportFailure 400 UpErr.emptyUpload] }
          settleUpReject s UpErr.emptyUpload
        else settleUpResolve cfg s
  else
    let s := { s with actions := s.actions ++
      [UpAction.reportFailure 500 (UpErr.statFailed
        (JsError.referenceError "fs"))] }
    settleUpReject s (UpErr.statFailed (JsError.referenceError "fs"))

/-- One busboy event firing, as translated from endpoints.js: the `data`
counter (lines 152-154), the file `limit` handler (lines 127-144, in source
order: `file.resume()`, then `onError(err, 413)`, then `reject`), the
`filesLimit` handler (lines 111-122), and the `finish` handler. -/
def upStep (cfg : UpConfig) (s : UpState) : UpEvent → UpState
  | UpEvent.fileData n => { s with bytes := s.bytes + n }
  | UpEvent.fileLimit =>
      let s := { s with hitLimit := true }
      let s := { s with actions := s.actions ++ [UpAction.resume] }
      let s := { s with actions := s.actions ++
        [UpAction.reportFailure 413 UpErr.fileTooLarge] }
      settleUpReject s UpErr.fileTooLarge
  | UpEvent.filesLimit =>
      let s := { s with actions := s.actions ++
        [UpAction.reportFailure 400 UpErr.tooManyFiles] }
      settleUpReject s UpErr.tooManyFiles
  | UpEvent.bodyFinish savedSize => finishHandler cfg s savedSize

/-- Fresh upload session state. -/
def upInit : UpState := ⟨false, 0, [], none⟩

/-- The upload session state after the given busboy events fire in order. -/
def upRun (cfg : UpConfig) (events : List UpEvent) : UpState :=
  events.foldl (upStep cfg) upInit

/-- A concrete upload reused by the concrete counterexamples. -/
def sampleUpCfg : UpConfig := ⟨"song.wav", "/uploads/up1", "audio/wav"⟩

theorem upRun_data_fields (cfg : UpConfig) (ns : List Nat) (s : UpState) :
    ((ns.map UpEvent.fileData).foldl (upStep cfg) s).hitLimit = s.hitLimit
    ∧ ((ns.map UpEvent.fileData).foldl (upStep cfg) s).actions = s.actions
    ∧ ((ns.map UpEvent.fileData).foldl (upStep cfg) s).settledUp
        = s.settledUp := by
  induction ns generalizing s with
  | nil => exact ⟨rfl, rfl, rfl⟩
  | cons n ns ih =>
      simpa [upStep] using ih { s with bytes := s.bytes + n }

/-- C2: the UploadService module never imports `fs`, so on a normal
end-of-stream with no limit hit the `finish` handler's
`fs.statSync(savedFile)` raises a ReferenceError that the catch converts
into a 500 report and a rejection: even an upload whose destination file
exists with non-zero size is rejected and never resolves with the upload
result the claim describes. -/
theorem c2_finish_rejects_despite_valid_file :
    uploadModuleBindings.contains "fs" = false
    ∧ (upRun sampleUpCfg
        [UpEvent.fileData 5, UpEvent.bodyFinish (some 5)]).settledUp
      = some (UpSettle.rejectedUpload
          (UpErr.statFailed (JsError.referenceError "fs")))
    ∧ (upRun sampleUpCfg
        [UpEvent.fileData 5, UpEvent.bodyFinish (some 5)]).settledUp
      ≠ some (UpSettle.resolvedUpload "song.wav" "/uploads/up1" 5 "audio/wav")
    ∧ (upRun sampleUpCfg
        [UpEvent.fileData 5, UpEvent.bodyFinish (some 5)]).actions
      = [UpAction.reportFailure 500
          (UpErr.statFailed (JsError.referenceError "fs"))] := by
  refine ⟨rfl, ?_, ?_, ?_⟩ <;> decide

/-- C3 counterexample: in a run that hits the byte limit, the emitted action
sequence is `resume`, then the 413 FileTooLarge report, then the deletion of
the partial file at `finish` — the failure is reported before the body is
drained and before the deletion, so the deletion does not precede the
report. -/
theorem c3_counterexample :
    (upRun sampleUpCfg
        [UpEvent.fileLimit, UpEvent.bodyFinish (some 3)]).actions
      = [UpAction.resume, UpAction.reportFailure 413 UpErr.fileTooLarge,
         UpAction.deletePartial]
    ∧ ¬ ((upRun sampleUpCfg
          [UpEvent.fileLimit, UpEvent.bodyFinish (some 3)]).actions.indexOf
            UpAction.deletePartial
        < (upRun sampleUpCfg
            [UpEvent.fileLimit, UpEvent.bodyFinish (some 3)]).actions.indexOf
              (UpAction.reportFailure 413 UpErr.fileTooLarge)) := by
  constructor <;> decide

/-- C3 (amended): when the byte limit is hit mid-stream the session keeps
consuming the remaining body (`file.resume()`), reports the FileTooLarge
failure immediately from the `limit` handler — before the body is drained —
and deletes the partially written destination file at `finish`, after the
failure was reported; the Promise is rejected with FileTooLarge. -/
theorem c3_limit_actions (cfg : UpConfig) (ns : List Nat) (sz : Option Nat) :
    (upRun cfg
        (ns.map UpEvent.fileData ++ [UpEvent.fileLimit,
          UpEvent.bodyFinish sz])).actions
      = [UpAction.resume, UpAction.reportFailure 413 UpErr.fileTooLarge,
         UpAction.deletePartial]
    ∧ (upRun cfg
        (ns.map UpEvent.fileData ++ [UpEvent.fileLimit,
          UpEvent.bodyFinish sz])).settledUp
      = some (UpSettle.rejectedUpload UpErr.fileTooLarge) := by
  obtain ⟨h1, h2, h3⟩ := upRun_data_fields cfg ns upInit
  simp only [upInit] at h1 h2 h3
  unfold upRun
  rw [List.foldl_append]
  constructor <;>
    simp [upStep, finishHandler, upInit, settleUpReject, h1, h2, h3]
